import Mathlib

/-!
# Verification of the linefinder real-time distribution-and-alerting core

Shallow embedding of the Go sources of `joshskkim/linefinder`:

* `internal/alerts/models.go`, `internal/alerts/detector.go` — value alert
  detector (thresholds, confidence tiers, dedup/cooldown).
* `internal/websocket/hub.go`, `internal/api/handlers.go` — connection hub
  with topic subscriptions, bounded mailboxes and non-blocking broadcast.
* `internal/polling/service.go` — polling scheduler: recovery-mode state
  machine, single-slot toggle command channel, change-detection fingerprint.
* `internal/service/odds.go`, `internal/oddsapi/client.go` — notification
  dispatcher: quiet hours, push delivery self-healing, preference storage.

Modelling conventions:

* Go `float64` values are modelled as exact rationals (`ℚ`).  Every claim
  under study is about order comparisons, subtraction and division of these
  values; on the magnitudes involved the Go `float64` operations and the
  rational operations agree, and `ℚ` gives decidable, kernel-computable
  comparisons.
* `time.Time` instants are modelled as rationals on an abstract time line;
  `time.Now()` becomes an explicit `now` parameter (the spec itself asks for
  explicit clock parameters, §9).
* Go channels with buffer capacity `n` are modelled as lists bounded by `n`;
  a non-blocking `select { case ch <- v: default: }` becomes a total
  function that appends when the list is below capacity and is a no-op
  otherwise.
* Fallible external calls (database lookups, push delivery) are modelled as
  `Except`/result parameters supplied by the environment.
-/

/-! ## Data model: sports, games, outcomes (`internal/models`, unnamed part_001) -/

/-- `models.Sport` — the two supported sports. -/
inductive Sport where
  | nfl
  | nba
deriving DecidableEq, Repr

/-- `string(sport)` — the Go string value of a `models.Sport` constant. -/
def Sport.key : Sport → String
  | .nfl => "americanfootball_nfl"
  | .nba => "basketball_nba"

/-- `models.Outcome` — a single betting option; `Point` is a nullable line. -/
structure Outcome where
  name : String
  price : ℚ
  point : Option ℚ
deriving DecidableEq, Repr

/-- `models.MarketData` — odds for one market type. -/
structure MarketData where
  key : String
  outcomes : List Outcome
deriving DecidableEq, Repr

/-- `models.Bookmaker` — one sportsbook's odds for a game. -/
structure Bookmaker where
  key : String
  title : String
  lastUpdate : ℚ
  markets : List MarketData
deriving DecidableEq, Repr

/-- `models.Game` — a single sporting event. -/
structure Game where
  id : String
  sportKey : Sport
  sportTitle : String
  commenceTime : ℚ
  homeTeam : String
  awayTeam : String
  bookmakers : List Bookmaker
deriving DecidableEq, Repr

/-! ## Alert models (`internal/alerts/models.go`) -/

/-- Confidence level constant `ConfidenceLow`. -/
def ConfidenceLow : String := "low"

/-- Confidence level constant `ConfidenceMedium`. -/
def ConfidenceMedium : String := "medium"

/-- Confidence level constant `ConfidenceHigh`. -/
def ConfidenceHigh : String := "high"

/-- Direction constant `DirectionOver`. -/
def DirectionOver : String := "over"

/-- Direction constant `DirectionUnder`. -/
def DirectionUnder : String := "under"

/-- Prop category constant `PropPoints`. -/
def PropPoints : String := "Points"

/-- Prop category constant `PropRebounds`. -/
def PropRebounds : String := "Rebounds"

/-- Prop category constant `PropAssists`. -/
def PropAssists : String := "Assists"

/-- Prop category constant `PropThrees`. -/
def PropThrees : String := "Threes"

/-- `alerts.Thresholds` — per-prop threshold configuration. -/
structure Thresholds where
  points : ℚ
  rebounds : ℚ
  assists : ℚ
  threes : ℚ
  default : ℚ
deriving DecidableEq, Repr

/-- `alerts.DefaultThresholds` — the default threshold configuration. -/
def DefaultThresholds : Thresholds :=
  { points := 2
    rebounds := 3/2
    assists := 1
    threes := 1/2
    default := 2 }

/-- `Thresholds.GetThreshold` — threshold for a given prop category
(the Go `switch` on the category string). -/
def Thresholds.GetThreshold (t : Thresholds) (category : String) : ℚ :=
  if category = PropPoints then t.points
  else if category = PropRebounds then t.rebounds
  else if category = PropAssists then t.assists
  else if category = PropThrees then t.threes
  else t.default

/-- `alerts.GetConfidence` — confidence level based on
`ratio = absDiff / threshold`: `ratio ≥ 2.0 → high`, `ratio ≥ 1.5 → medium`,
else `low`. -/
def GetConfidence (absDiff : ℚ) (threshold : ℚ) : String :=
  let ratio := absDiff / threshold
  if 2 ≤ ratio then ConfidenceHigh
  else if 3/2 ≤ ratio then ConfidenceMedium
  else ConfidenceLow

/-- `alerts.GetCooldownDuration` — cooldown (in hours here) per confidence
level, from the `CooldownDurations` map with a 4-hour default. -/
def GetCooldownDuration (confidence : String) : ℚ :=
  if confidence = ConfidenceLow then 4
  else if confidence = ConfidenceMedium then 2
  else if confidence = ConfidenceHigh then 1
  else 4

/-- `alerts.ValueAlert` — a detected value opportunity.  `GameTime`,
`DetectedAt`, `ExpiresAt` are abstract instants (`ℚ`). -/
structure ValueAlert where
  id : String
  playerName : String
  team : String
  sport : String
  gameID : String
  gameTime : ℚ
  awayTeam : String
  homeTeam : String
  propCategory : String
  line : ℚ
  average : ℚ
  difference : ℚ
  absDifference : ℚ
  direction : String
  confidence : String
  bestOdds : ℚ
  bookmaker : String
  detectedAt : ℚ
  expiresAt : ℚ
deriving DecidableEq, Repr

/-! ## Detector (`internal/alerts/detector.go`) -/

/-- `alerts.PropData` — a single prop with its line and average. -/
structure PropData where
  playerName : String
  team : String
  propCategory : String
  line : ℚ
  average : ℚ
  bestOdds : ℚ
  bestOddsDir : String
  bookmaker : String
deriving DecidableEq, Repr

/-- `alerts.GameContext` — game context for alerts. -/
structure GameContext where
  gameID : String
  sport : String
  homeTeam : String
  awayTeam : String
  gameTime : ℚ
deriving DecidableEq, Repr

/-- `Detector.DetectValue` — pure value detection: `diff = Line − Average`;
no alert when `|diff| < threshold`; direction `under` when `diff > 0`
(line above average), `over` otherwise; confidence from `GetConfidence`.
`time.Now()` is the explicit `now` argument. -/
def Detector.DetectValue (thresholds : Thresholds) (now : ℚ)
    (prop : PropData) (ctx : GameContext) : Option ValueAlert :=
  let threshold := thresholds.GetThreshold prop.propCategory
  let diff := prop.line - prop.average
  let absDiff := |diff|
  if absDiff < threshold then none
  else
    let direction := if 0 < diff then DirectionUnder else DirectionOver
    let confidence := GetConfidence absDiff threshold
    some
      { id := ctx.gameID ++ "-" ++ prop.playerName ++ "-" ++
          prop.propCategory ++ "-" ++ direction
        playerName := prop.playerName
        team := prop.team
        sport := ctx.sport
        gameID := ctx.gameID
        gameTime := ctx.gameTime
        awayTeam := ctx.awayTeam
        homeTeam := ctx.homeTeam
        propCategory := prop.propCategory
        line := prop.line
        average := prop.average
        difference := diff
        absDifference := absDiff
        direction := direction
        confidence := confidence
        bestOdds := prop.bestOdds
        bookmaker := prop.bookmaker
        detectedAt := now
        expiresAt := ctx.gameTime }

/-- `database.AlertHistory` — persisted record keyed by
(player, category, direction, game). -/
structure AlertHistory where
  playerName : String
  propCategory : String
  direction : String
  gameID : String
  lineValue : ℚ
  averageValue : ℚ
  difference : ℚ
  confidence : String
  cooldownUntil : ℚ
deriving DecidableEq, Repr

/-- `Detector.ShouldNotify` — dedup/cooldown decision.  `dbConfigured`
models `d.db ≠ nil`; `lookup` is the result of `GetAlertHistory` for the
alert's composite key (`.error` = lookup error, `.ok none` = no record);
`now` is `time.Now()`.  Returns the boolean of the Go `(bool, string)`
pair (the human-readable reason string is dropped). -/
def Detector.ShouldNotify (dbConfigured : Bool)
    (lookup : Except Unit (Option AlertHistory)) (now : ℚ)
    (alert : ValueAlert) : Bool :=
  if dbConfigured = false then true
  else
    match lookup with
    | .error _ => true
    | .ok none => true
    | .ok (some history) =>
      if now < history.cooldownUntil then
        if |alert.line - history.lineValue| < 1/2 then false
        else true
      else true

/-- Rank of a confidence tier, for stating monotonicity. -/
def confRank (c : String) : ℕ :=
  if c = ConfidenceHigh then 2
  else if c = ConfidenceMedium then 1
  else 0

/-! ## Claim C1: DetectValue threshold gate, direction, confidence tiers -/

theorem confRank_low : confRank ConfidenceLow = 0 := by decide

theorem confRank_medium : confRank ConfidenceMedium = 1 := by decide

theorem confRank_high : confRank ConfidenceHigh = 2 := by decide

/-- `GetConfidence` yields `high` exactly when the ratio is at least 2. -/
theorem getConfidence_eq_high (d θ : ℚ) :
    GetConfidence d θ = ConfidenceHigh ↔ 2 ≤ d / θ := by
  simp only [GetConfidence]
  split_ifs with h1 h2
  · simp [h1]
  · exact ⟨fun hc => absurd hc (by decide), fun hc => absurd hc h1⟩
  · exact ⟨fun hc => absurd hc (by decide), fun hc => absurd hc h1⟩

/-- `GetConfidence` yields `medium` exactly when the ratio is in `[3/2, 2)`. -/
theorem getConfidence_eq_medium (d θ : ℚ) :
    GetConfidence d θ = ConfidenceMedium ↔ 3/2 ≤ d / θ ∧ d / θ < 2 := by
  simp only [GetConfidence]
  split_ifs with h1 h2
  · exact ⟨fun hc => absurd hc (by decide), fun hc => absurd h1 (not_le.mpr hc.2)⟩
  · exact ⟨fun _ => ⟨h2, not_le.mp h1⟩, fun _ => rfl⟩
  · exact ⟨fun hc => absurd hc (by decide), fun hc => absurd hc.1 h2⟩

/-- `GetConfidence` yields `low` exactly when the ratio is below 3/2. -/
theorem getConfidence_eq_low (d θ : ℚ) :
    GetConfidence d θ = ConfidenceLow ↔ d / θ < 3/2 := by
  simp only [GetConfidence]
  split_ifs with h1 h2
  · constructor
    · intro hc
      exact absurd hc (by decide)
    · intro hc
      exact absurd h1 (not_le.mpr (by linarith))
  · exact ⟨fun hc => absurd hc (by decide), fun hc => absurd h2 (not_le.mpr hc)⟩
  · exact ⟨fun _ => not_le.mp h2, fun _ => rfl⟩

/-- Confidence rank is monotone non-decreasing in the ratio
`absDiff / threshold`. -/
theorem getConfidence_mono (d₁ d₂ θ₁ θ₂ : ℚ) (h : d₁ / θ₁ ≤ d₂ / θ₂) :
    confRank (GetConfidence d₁ θ₁) ≤ confRank (GetConfidence d₂ θ₂) := by
  simp only [GetConfidence]
  by_cases h1 : 2 ≤ d₁ / θ₁
  · rw [if_pos h1, if_pos (le_trans h1 h)]
  · rw [if_neg h1]
    by_cases h2 : 3/2 ≤ d₁ / θ₁
    · rw [if_pos h2]
      by_cases hb1 : 2 ≤ d₂ / θ₂
      · rw [if_pos hb1, confRank_medium, confRank_high]
        omega
      · rw [if_neg hb1, if_pos (le_trans h2 h)]
    · rw [if_neg h2, confRank_low]
      exact Nat.zero_le _

/-- C1: with a positive category threshold θ, `DetectValue` returns no alert
iff `|Line − Average| < θ`; a returned alert has `Difference = Line − Average`,
direction `over` exactly when the difference is negative (`under` when
positive), and confidence `high`/`medium`/`low` by the ratio `|diff|/θ`
(`≥ 2`, `≥ 3/2`, otherwise); confidence rank is monotone non-decreasing in
the ratio. -/
theorem C1_detectValue_spec (t : Thresholds) (now : ℚ) (prop : PropData)
    (ctx : GameContext) (hθ : 0 < t.GetThreshold prop.propCategory) :
    (Detector.DetectValue t now prop ctx = none ↔
      |prop.line - prop.average| < t.GetThreshold prop.propCategory) ∧
    (∀ a : ValueAlert, Detector.DetectValue t now prop ctx = some a →
      a.difference = prop.line - prop.average ∧
      (a.direction = DirectionOver ↔ a.difference < 0) ∧
      (a.direction = DirectionUnder ↔ 0 < a.difference) ∧
      a.confidence = GetConfidence |a.difference|
        (t.GetThreshold prop.propCategory) ∧
      (a.confidence = ConfidenceHigh ↔
        2 ≤ |a.difference| / t.GetThreshold prop.propCategory) ∧
      (a.confidence = ConfidenceMedium ↔
        3/2 ≤ |a.difference| / t.GetThreshold prop.propCategory ∧
          |a.difference| / t.GetThreshold prop.propCategory < 2) ∧
      (a.confidence = ConfidenceLow ↔
        |a.difference| / t.GetThreshold prop.propCategory < 3/2)) ∧
    (∀ d₁ d₂ θ₁ θ₂ : ℚ, d₁ / θ₁ ≤ d₂ / θ₂ →
      confRank (GetConfidence d₁ θ₁) ≤ confRank (GetConfidence d₂ θ₂)) := by
  refine ⟨?_, ?_, fun d₁ d₂ θ₁ θ₂ hle => getConfidence_mono d₁ d₂ θ₁ θ₂ hle⟩
  · by_cases h : |prop.line - prop.average| < t.GetThreshold prop.propCategory
    · simp [Detector.DetectValue, h]
    · simp [Detector.DetectValue, h]
  · intro a ha
    by_cases h : |prop.line - prop.average| < t.GetThreshold prop.propCategory
    · simp [Detector.DetectValue, h] at ha
    · have hd0 : prop.line - prop.average ≠ 0 := by
        intro h0
        rw [h0] at h
        simp only [abs_zero] at h
        exact h hθ
      simp only [Detector.DetectValue, if_neg h] at ha
      injection ha with ha2
      subst ha2
      refine ⟨rfl, ?_, ?_, rfl, getConfidence_eq_high _ _,
        getConfidence_eq_medium _ _, getConfidence_eq_low _ _⟩
      · show (if 0 < prop.line - prop.average then DirectionUnder
            else DirectionOver) = DirectionOver ↔
            prop.line - prop.average < 0
        by_cases hpos : 0 < prop.line - prop.average
        · rw [if_pos hpos]
          exact ⟨fun hc => absurd hc (by decide),
            fun hlt => absurd hlt (asymm hpos)⟩
        · rw [if_neg hpos]
          exact ⟨fun _ => lt_of_le_of_ne (not_lt.mp hpos) hd0, fun _ => rfl⟩
      · show (if 0 < prop.line - prop.average then DirectionUnder
            else DirectionOver) = DirectionUnder ↔
            0 < prop.line - prop.average
        by_cases hpos : 0 < prop.line - prop.average
        · rw [if_pos hpos]
          exact ⟨fun _ => hpos, fun _ => rfl⟩
        · rw [if_neg hpos]
          exact ⟨fun hc => absurd hc (by decide), fun hc => absurd hc hpos⟩

/-- The §8 scenario prop: category Points (θ = 2), line 22.5, average 25.5. -/
def scenarioProp : PropData :=
  { playerName := "Example Player"
    team := "EX"
    propCategory := "Points"
    line := 45/2
    average := 51/2
    bestOdds := 110
    bestOddsDir := "over"
    bookmaker := "book" }

/-- The §8 scenario game context. -/
def scenarioCtx : GameContext :=
  { gameID := "g1"
    sport := "basketball_nba"
    homeTeam := "H"
    awayTeam := "A"
    gameTime := 100 }

theorem C1_detectValue_spec_witness :
    0 < DefaultThresholds.GetThreshold scenarioProp.propCategory ∧
    (Detector.DetectValue DefaultThresholds 0 scenarioProp scenarioCtx = none ↔
      |scenarioProp.line - scenarioProp.average| <
        DefaultThresholds.GetThreshold scenarioProp.propCategory) :=
  ⟨by decide,
    (C1_detectValue_spec DefaultThresholds 0 scenarioProp scenarioCtx
      (by decide)).1⟩

/-! ## Claim C3: ShouldNotify suppression condition -/

/-- C3: `ShouldNotify` returns suppress (`false`) iff the database is
configured, the history lookup succeeded with a record for the alert's key,
the record's cooldown has not expired (`now < CooldownUntil`), and the line
moved less than 0.5 units; every other case (no record, expired cooldown,
line moved ≥ 0.5, lookup error) notifies. -/
theorem C3_shouldNotify_spec (dbConfigured : Bool)
    (lookup : Except Unit (Option AlertHistory)) (now : ℚ)
    (alert : ValueAlert) :
    Detector.ShouldNotify dbConfigured lookup now alert = false ↔
      dbConfigured = true ∧
      ∃ history : AlertHistory, lookup = .ok (some history) ∧
        now < history.cooldownUntil ∧
        |alert.line - history.lineValue| < 1/2 := by
  unfold Detector.ShouldNotify
  cases dbConfigured with
  | false => simp
  | true =>
    cases lookup with
    | error e => simp
    | ok o =>
      cases o with
      | none => simp
      | some history =>
        by_cases hcd : now < history.cooldownUntil
        · by_cases hmv : |alert.line - history.lineValue| < 1/2
          · simp [hcd, hmv]
          · simp [hcd, hmv]
        · simp [hcd]

/-! ## Connection hub (`internal/websocket/hub.go`) -/

/-- Message type constant `MessageTypeOddsUpdate`. -/
def MessageTypeOddsUpdate : String := "odds_update"

/-- Message type constant `MessageTypeError`. -/
def MessageTypeError : String := "error"

/-- Message type constant `MessageTypeStatus`. -/
def MessageTypeStatus : String := "status"

/-- `websocket.Message` — a server frame.  JSON marshalling is a
deterministic injective encoding of this record, so frames are modelled by
the record itself. -/
structure WMessage where
  type : String
  sport : String
  games : List Game
  timestamp : ℚ
  error : String
  status : String
deriving DecidableEq, Repr

/-- A connected client as the hub sees it: identity and the bounded `send`
mailbox (a buffered channel of capacity `sendCap`, held as the list of
queued frames) with its closed flag. -/
structure HClient where
  cid : ℕ
  sendCap : ℕ
  send : List WMessage
  sendClosed : Bool
deriving DecidableEq, Repr

/-- A buffered channel send blocks (and the non-blocking variant fails)
exactly when the buffer holds `sendCap` items. -/
def HClient.sendFull (c : HClient) : Bool := c.sendCap ≤ c.send.length

/-- `websocket.Hub` — registered clients, per-sport subscriber sets (as
client ids; the Go map holds client pointers, resolved here against the
registry) and the connection limit. -/
structure Hub where
  clients : List HClient
  subs : Sport → List ℕ
  maxConnections : ℕ

/-- The capacity-exceeded error frame built by `registerClient`. -/
def capacityErrorFrame (now : ℚ) : WMessage :=
  { type := MessageTypeError
    sport := ""
    games := []
    timestamp := now
    error := "Server at capacity, please try again later"
    status := "" }

/-- `Hub.registerClient` — adds the client unless
`len(clients) ≥ maxConnections`, in which case the capacity error is sent
into the client's mailbox (an unconditional channel send on the fresh
buffer, modelled as an append) and the mailbox is closed instead.  Returns
the hub and the resulting client object. -/
def Hub.registerClient (h : Hub) (now : ℚ) (c : HClient) : Hub × HClient :=
  if h.maxConnections ≤ h.clients.length then
    (h, { c with send := c.send ++ [capacityErrorFrame now], sendClosed := true })
  else
    ({ h with clients := h.clients ++ [c] }, c)

/-- `Hub.unregisterClient` — if the client is registered, removes it from
the registry and from every sport's subscriber set and closes its mailbox
(the closed mailbox of a removed client is no longer hub state); idempotent. -/
def Hub.unregisterClient (h : Hub) (cid : ℕ) : Hub :=
  if cid ∈ h.clients.map HClient.cid then
    { h with
      clients := h.clients.filter (fun c => c.cid ≠ cid)
      subs := fun s => (h.subs s).filter (fun i => i ≠ cid) }
  else h

/-- `Hub.Subscribe` — inserts the client into the sport's subscriber set
(a Go map insert: no-op when already present).  It does not touch any other
sport's subscriber set. -/
def Hub.Subscribe (h : Hub) (cid : ℕ) (sport : Sport) : Hub :=
  { h with subs := fun s =>
      if s = sport then
        if cid ∈ h.subs sport then h.subs sport else h.subs sport ++ [cid]
      else h.subs s }

/-- `Hub.Unsubscribe` — removes the client from the sport's subscriber set. -/
def Hub.Unsubscribe (h : Hub) (cid : ℕ) (sport : Sport) : Hub :=
  { h with subs := fun s =>
      if s = sport then (h.subs sport).filter (fun i => i ≠ cid)
      else h.subs s }

/-- `Hub.Broadcast` — builds the `odds_update` frame once, returns early if
the sport has no subscribers, then makes a non-blocking send into every
subscriber's mailbox; subscribers whose mailbox is full are collected and
evicted through the unregister path after the fan-out completes. -/
def Hub.Broadcast (h : Hub) (now : ℚ) (sport : Sport) (games : List Game) :
    Hub :=
  let data : WMessage :=
    { type := MessageTypeOddsUpdate, sport := sport.key, games := games
      timestamp := now, error := "", status := "" }
  let subscribers := h.subs sport
  if subscribers.length = 0 then h
  else
    let failedClients :=
      (h.clients.filter
        (fun c => decide (c.cid ∈ subscribers) && c.sendFull)).map HClient.cid
    let afterFanOut :=
      { h with clients := h.clients.map (fun c =>
          if c.cid ∈ subscribers ∧ c.sendFull = false then
            { c with send := c.send ++ [data] }
          else c) }
    failedClients.foldl Hub.unregisterClient afterFanOut

/-- `Hub.BroadcastStatus` — non-blocking status frame to every registered
client regardless of topic; full mailboxes are skipped with no eviction. -/
def Hub.BroadcastStatus (h : Hub) (now : ℚ) (status : String) : Hub :=
  { h with clients := h.clients.map (fun c =>
      if c.sendFull = false then
        { c with send := c.send ++
            [{ type := MessageTypeStatus, sport := "", games := []
               timestamp := now, error := "", status := status }] }
      else c) }

/-- `Hub.CanAccept` — whether the registry is below its configured capacity. -/
def Hub.CanAccept (h : Hub) : Bool :=
  decide (h.clients.length < h.maxConnections)

/-- `Hub.ClientCount` — the current number of connected clients. -/
def Hub.ClientCount (h : Hub) : ℕ := h.clients.length

/-! ## Claim C2: non-blocking broadcast with eviction of full mailboxes -/

/-- Membership in the registry after one unregister. -/
theorem mem_unregisterClient (h : Hub) (i : ℕ) (c : HClient) :
    c ∈ (h.unregisterClient i).clients ↔ c ∈ h.clients ∧ c.cid ≠ i := by
  unfold Hub.unregisterClient
  by_cases hmem : i ∈ h.clients.map HClient.cid
  · simp [hmem, List.mem_filter]
  · simp only [if_neg hmem]
    constructor
    · intro hc
      refine ⟨hc, fun heq => hmem ?_⟩
      exact List.mem_map.mpr ⟨c, hc, heq⟩
    · exact fun hc => hc.1

/-- Membership in the registry after unregistering a list of ids. -/
theorem mem_foldl_unregister (ids : List ℕ) (h : Hub) (c : HClient) :
    c ∈ (ids.foldl Hub.unregisterClient h).clients ↔
      c ∈ h.clients ∧ c.cid ∉ ids := by
  induction ids generalizing h with
  | nil => simp
  | cons i rest ih =>
    rw [List.foldl_cons, ih, mem_unregisterClient]
    simp only [List.mem_cons]
    tauto

/-- C2: broadcast fan-out is a total function of the hub state (the
publisher never waits); every subscriber whose mailbox is full at publish
time ends up evicted from the registry via the unregister path, every
subscriber with room gets the frame appended to its mailbox and stays, and
clients not subscribed to the topic are untouched — so exactly the full
subscribers are evicted. -/
theorem C2_broadcast_spec (h : Hub) (now : ℚ) (sport : Sport)
    (games : List Game) (hnodup : (h.clients.map HClient.cid).Nodup) :
    (∀ c ∈ h.clients, c.cid ∈ h.subs sport → c.sendFull = true →
      ∀ c' ∈ (h.Broadcast now sport games).clients, c'.cid ≠ c.cid) ∧
    (∀ c ∈ h.clients, c.cid ∈ h.subs sport → c.sendFull = false →
      { c with send := c.send ++
          [{ type := MessageTypeOddsUpdate, sport := sport.key
             games := games, timestamp := now, error := "", status := "" }] } ∈
        (h.Broadcast now sport games).clients) ∧
    (∀ c ∈ h.clients, c.cid ∉ h.subs sport →
      c ∈ (h.Broadcast now sport games).clients) := by
  have hinj : ∀ a ∈ h.clients, ∀ b ∈ h.clients, a.cid = b.cid → a = b :=
    List.inj_on_of_nodup_map hnodup
  by_cases hempty : (h.subs sport).length = 0
  · have hnil : h.subs sport = [] := List.length_eq_zero.mp hempty
    refine ⟨?_, ?_, ?_⟩
    · intro c _ hcsub _
      rw [hnil] at hcsub
      exact absurd hcsub (List.not_mem_nil _)
    · intro c _ hcsub _
      rw [hnil] at hcsub
      exact absurd hcsub (List.not_mem_nil _)
    · intro c hc _
      simp only [Hub.Broadcast, if_pos hempty]
      exact hc
  · have hbr : (h.Broadcast now sport games).clients =
        (((h.clients.filter
            (fun c => decide (c.cid ∈ h.subs sport) && c.sendFull)).map
              HClient.cid).foldl Hub.unregisterClient
          { h with clients := h.clients.map (fun c =>
              if c.cid ∈ h.subs sport ∧ c.sendFull = false then
                { c with send := c.send ++
                    [{ type := MessageTypeOddsUpdate, sport := sport.key
                       games := games, timestamp := now, error := ""
                       status := "" }] }
              else c) }).clients := by
      simp only [Hub.Broadcast, if_neg hempty]
    have hfailed : ∀ j : ℕ,
        j ∈ (h.clients.filter
          (fun c => decide (c.cid ∈ h.subs sport) && c.sendFull)).map
            HClient.cid ↔
        ∃ b ∈ h.clients, b.cid ∈ h.subs sport ∧ b.sendFull = true ∧
          b.cid = j := by
      intro j
      simp only [List.mem_map, List.mem_filter, Bool.and_eq_true,
        decide_eq_true_eq]
      constructor
      · rintro ⟨b, ⟨hb, hbsub, hbfull⟩, rfl⟩
        exact ⟨b, hb, hbsub, hbfull, rfl⟩
      · rintro ⟨b, hb, hbsub, hbfull, rfl⟩
        exact ⟨b, ⟨hb, hbsub, hbfull⟩, rfl⟩
    refine ⟨?_, ?_, ?_⟩
    · intro c hc hcsub hcfull c' hc'
      rw [hbr, mem_foldl_unregister] at hc'
      intro heq
      exact hc'.2 ((hfailed c'.cid).mpr ⟨c, hc, hcsub, hcfull, heq.symm⟩)
    · intro c hc hcsub hcfull
      rw [hbr, mem_foldl_unregister]
      constructor
      · exact List.mem_map.mpr ⟨c, hc, by rw [if_pos ⟨hcsub, hcfull⟩]⟩
      · intro hmem
        obtain ⟨b, hb, hbsub, hbfull, hbeq⟩ := (hfailed _).mp hmem
        have : b = c := hinj b hb c hc hbeq
        subst this
        rw [hbfull] at hcfull
        exact absurd hcfull (by decide)
    · intro c hc hcsub
      rw [hbr, mem_foldl_unregister]
      constructor
      · refine List.mem_map.mpr ⟨c, hc, ?_⟩
        rw [if_neg]
        intro hcontra
        exact hcsub hcontra.1
      · intro hmem
        obtain ⟨b, hb, hbsub, _, hbeq⟩ := (hfailed _).mp hmem
        have : b = c := hinj b hb c hc hbeq
        subst this
        exact hcsub hbsub

/-- A placeholder queued frame for witness states. -/
def pongFrame : WMessage :=
  { type := "pong", sport := "", games := [], timestamp := 0
    error := "", status := "" }

/-- Witness client 1: mailbox of capacity 1 already holding one frame
(full, unresponsive). -/
def hubC1 : HClient := { cid := 1, sendCap := 1, send := [pongFrame], sendClosed := false }

/-- Witness client 2: mailbox of capacity 4 with room. -/
def hubC2 : HClient := { cid := 2, sendCap := 4, send := [], sendClosed := false }

/-- Witness hub: both clients registered and subscribed to nfl. -/
def hubW : Hub :=
  { clients := [hubC1, hubC2]
    subs := fun s => if s = Sport.nfl then [1, 2] else []
    maxConnections := 10 }

theorem C2_broadcast_spec_witness :
    { hubC2 with send := hubC2.send ++
        [{ type := MessageTypeOddsUpdate, sport := Sport.nfl.key
           games := [], timestamp := 0, error := "", status := "" }] } ∈
      (hubW.Broadcast 0 Sport.nfl []).clients ∧
    ({ hubC2 with send := hubC2.send ++
        [{ type := MessageTypeOddsUpdate, sport := Sport.nfl.key
           games := [], timestamp := 0, error := "", status := "" }] } :
      HClient).cid ≠ hubC1.cid :=
  have hmem := (C2_broadcast_spec hubW 0 Sport.nfl [] (by decide)).2.1
    hubC2 (by decide) (by decide) (by decide)
  ⟨hmem,
    (C2_broadcast_spec hubW 0 Sport.nfl [] (by decide)).1
      hubC1 (by decide) (by decide) (by decide) _ hmem⟩

/-! ## Claim C9: capacity-exceeded registration -/

/-- C9: a registration attempted while the hub holds exactly
`maxConnections` clients leaves the hub unchanged (existing connections
unaffected, live count still at the limit), appends the capacity error to
the rejected client's mailbox and closes it; `CanAccept` is true exactly
when the live count is strictly below the limit. -/
theorem C9_register_at_capacity (h : Hub) (now : ℚ) (c : HClient)
    (hfull : h.clients.length = h.maxConnections) :
    (h.registerClient now c).1 = h ∧
    (h.registerClient now c).1.ClientCount = h.maxConnections ∧
    (h.registerClient now c).2.send = c.send ++ [capacityErrorFrame now] ∧
    (h.registerClient now c).2.sendClosed = true ∧
    (∀ h' : Hub, h'.CanAccept = true ↔ h'.ClientCount < h'.maxConnections) := by
  have hcond : h.maxConnections ≤ h.clients.length := le_of_eq hfull.symm
  refine ⟨?_, ?_, ?_, ?_, ?_⟩
  · simp [Hub.registerClient, if_pos hcond]
  · simp [Hub.registerClient, if_pos hcond, Hub.ClientCount, hfull]
  · simp [Hub.registerClient, if_pos hcond]
  · simp [Hub.registerClient, if_pos hcond]
  · intro h'
    simp [Hub.CanAccept, Hub.ClientCount]

/-- Witness hub at capacity 2 holding two clients. -/
def hubAtCap : Hub :=
  { clients := [hubC1, hubC2]
    subs := fun _ => []
    maxConnections := 2 }

/-- A fresh client attempting to register at capacity. -/
def lateClient : HClient := { cid := 3, sendCap := 4, send := [], sendClosed := false }

theorem C9_register_at_capacity_witness :
    hubAtCap.clients.length = hubAtCap.maxConnections ∧
    (hubAtCap.registerClient 0 lateClient).1.ClientCount =
      hubAtCap.maxConnections ∧
    (hubAtCap.registerClient 0 lateClient).2.send =
      lateClient.send ++ [capacityErrorFrame 0] ∧
    (hubAtCap.registerClient 0 lateClient).2.sendClosed = true :=
  have hth := C9_register_at_capacity hubAtCap 0 lateClient (by decide)
  ⟨by decide, hth.2.1, hth.2.2.1, hth.2.2.2.1⟩

/-! ## Claim C6: single-topic subscription model -/

/-- Membership in a subscriber set after `Unsubscribe`. -/
theorem mem_subs_unsubscribe (h : Hub) (cid i : ℕ) (sp s : Sport) :
    i ∈ (h.Unsubscribe cid sp).subs s ↔
      i ∈ h.subs s ∧ ¬(i = cid ∧ s = sp) := by
  unfold Hub.Unsubscribe
  by_cases hs : s = sp
  · subst hs
    simp [List.mem_filter]
  · simp [hs]

/-- Membership in a subscriber set after unsubscribing from a list of
sports. -/
theorem mem_subs_foldl_unsubscribe (l : List Sport) (h : Hub) (cid i : ℕ)
    (s : Sport) :
    i ∈ ((l.foldl (fun hh sp => hh.Unsubscribe cid sp) h).subs s) ↔
      i ∈ h.subs s ∧ ¬(i = cid ∧ s ∈ l) := by
  induction l generalizing h with
  | nil => simp
  | cons sp rest ih =>
    rw [List.foldl_cons, ih, mem_subs_unsubscribe]
    simp only [List.mem_cons]
    tauto

/-- Membership in a subscriber set after `Subscribe`. -/
theorem mem_subs_subscribe (h : Hub) (cid i : ℕ) (sp s : Sport) :
    i ∈ (h.Subscribe cid sp).subs s ↔
      i ∈ h.subs s ∨ (i = cid ∧ s = sp) := by
  show i ∈ (if s = sp then
      (if cid ∈ h.subs sp then h.subs sp else h.subs sp ++ [cid])
    else h.subs s) ↔ _
  by_cases hs : s = sp
  · rw [if_pos hs]
    subst hs
    by_cases hmem : cid ∈ h.subs s
    · rw [if_pos hmem]
      constructor
      · exact fun hi => Or.inl hi
      · rintro (hi | ⟨rfl, -⟩)
        · exact hi
        · exact hmem
    · rw [if_neg hmem]
      rw [List.mem_append, List.mem_singleton]
      constructor
      · rintro (hi | rfl)
        · exact Or.inl hi
        · exact Or.inr ⟨rfl, rfl⟩
      · rintro (hi | ⟨rfl, -⟩)
        · exact Or.inl hi
        · exact Or.inr rfl
  · rw [if_neg hs]
    constructor
    · exact fun hi => Or.inl hi
    · rintro (hi | ⟨rfl, heq⟩)
      · exact hi
      · exact absurd heq hs

/-- A hub with one registered client and no subscriptions yet. -/
def soloHub : Hub :=
  { clients := [{ cid := 0, sendCap := 4, send := [], sendClosed := false }]
    subs := fun _ => []
    maxConnections := 10 }

/-- C6 counterexample: `Hub.Subscribe` by itself does not remove prior
topic membership — after `Subscribe(0, nfl)` then `Subscribe(0, nba)` the
client is in both subscriber sets at once, so the claim that `Subscribe`
first removes the prior membership (and a client is in at most one set
after any subscribe sequence) fails on the code. -/
theorem C6_counterexample :
    0 ∈ ((soloHub.Subscribe 0 Sport.nfl).Subscribe 0 Sport.nba).subs
        Sport.nfl ∧
    0 ∈ ((soloHub.Subscribe 0 Sport.nfl).Subscribe 0 Sport.nba).subs
        Sport.nba := by
  decide

/-- `api.Client` session state relevant to subscriptions: the local
`sports` set (Go `map[models.Sport]bool`, held as a list). -/
structure ClientSession where
  cid : ℕ
  sports : List Sport
deriving DecidableEq, Repr

/-- The sport-string validation at the top of `handleSubscribe`: only the
two sport keys are accepted. -/
def sportFromString (s : String) : Option Sport :=
  if s = Sport.nfl.key then some Sport.nfl
  else if s = Sport.nba.key then some Sport.nba
  else none

/-- `Client.handleSubscribe` — on a valid sport it first unsubscribes the
client from every sport in its local `sports` set, resets that set to the
new sport alone, and then calls `Hub.Subscribe`; on an invalid sport it
only sends an error reply (replies into the client's own mailbox are not
modelled: they do not touch subscription state). -/
def Client.handleSubscribe (h : Hub) (cs : ClientSession)
    (sportStr : String) : Hub × ClientSession :=
  match sportFromString sportStr with
  | none => (h, cs)
  | some sport =>
    let h1 := cs.sports.foldl (fun hh sp => hh.Unsubscribe cs.cid sp) h
    (h1.Subscribe cs.cid sport, { cs with sports := [sport] })

/-- In a list of length at most one, any two members coincide. -/
theorem mem_eq_of_length_le_one {α : Type} {l : List α} (hl : l.length ≤ 1)
    {a b : α} (ha : a ∈ l) (hb : b ∈ l) : a = b := by
  match l with
  | [] => exact absurd ha (List.not_mem_nil _)
  | [x] =>
    rw [List.mem_singleton] at ha hb
    rw [ha, hb]
  | x :: y :: rest => simp at hl

/-- C6 amended: the prior-membership removal lives in the client session's
`handleSubscribe`, not in `Hub.Subscribe` (which only adds).  If the
client's local `sports` set agrees with its hub membership and holds at
most one sport, then after any `handleSubscribe` the same holds and the
client belongs to at most one sport's subscriber set: a valid re-subscribe
replaces the membership, never adds. -/
theorem C6_handleSubscribe_single_topic (h : Hub) (cs : ClientSession)
    (sportStr : String)
    (hsync : ∀ s : Sport, cs.cid ∈ h.subs s ↔ s ∈ cs.sports)
    (hlen : cs.sports.length ≤ 1) :
    (∀ s : Sport,
      (Client.handleSubscribe h cs sportStr).2.cid ∈
        (Client.handleSubscribe h cs sportStr).1.subs s ↔
      s ∈ (Client.handleSubscribe h cs sportStr).2.sports) ∧
    (Client.handleSubscribe h cs sportStr).2.sports.length ≤ 1 ∧
    (∀ s u : Sport,
      (Client.handleSubscribe h cs sportStr).2.cid ∈
        (Client.handleSubscribe h cs sportStr).1.subs s →
      (Client.handleSubscribe h cs sportStr).2.cid ∈
        (Client.handleSubscribe h cs sportStr).1.subs u → s = u) := by
  cases hmatch : sportFromString sportStr with
  | none =>
    simp only [Client.handleSubscribe, hmatch]
    refine ⟨hsync, hlen, ?_⟩
    intro s u hs hu
    exact mem_eq_of_length_le_one hlen ((hsync s).mp hs) ((hsync u).mp hu)
  | some sport =>
    have hmem : ∀ s : Sport,
        (Client.handleSubscribe h cs sportStr).2.cid ∈
          (Client.handleSubscribe h cs sportStr).1.subs s ↔ s = sport := by
      intro s
      simp only [Client.handleSubscribe, hmatch]
      rw [mem_subs_subscribe, mem_subs_foldl_unsubscribe]
      constructor
      · rintro (⟨hin, hnot⟩ | ⟨-, rfl⟩)
        · exact absurd ⟨rfl, (hsync s).mp hin⟩ hnot
        · rfl
      · rintro rfl
        exact Or.inr ⟨rfl, rfl⟩
    refine ⟨?_, ?_, ?_⟩
    · intro s
      rw [hmem s]
      simp only [Client.handleSubscribe, hmatch, List.mem_singleton]
    · simp only [Client.handleSubscribe, hmatch, List.length_singleton,
        le_refl]
    · intro s u hs hu
      rw [hmem s] at hs
      rw [hmem u] at hu
      rw [hs, hu]

/-- Witness hub for C6: client 0 registered and subscribed to nfl. -/
def hubSub : Hub :=
  { clients := [{ cid := 0, sendCap := 4, send := [], sendClosed := false }]
    subs := fun s => if s = Sport.nfl then [0] else []
    maxConnections := 10 }

/-- Witness session for C6: client 0 with local sports set holding nfl. -/
def sessionSub : ClientSession := { cid := 0, sports := [Sport.nfl] }

theorem C6_handleSubscribe_single_topic_witness :
    (Client.handleSubscribe hubSub sessionSub "basketball_nba").2.sports.length ≤ 1 ∧
    ((Client.handleSubscribe hubSub sessionSub "basketball_nba").2.cid ∈
      (Client.handleSubscribe hubSub sessionSub "basketball_nba").1.subs
        Sport.nfl ↔
      Sport.nfl ∈
        (Client.handleSubscribe hubSub sessionSub "basketball_nba").2.sports) :=
  have hth := C6_handleSubscribe_single_topic hubSub sessionSub
    "basketball_nba" (by intro s; cases s <;> decide) (by decide)
  ⟨hth.2.1, hth.1 Sport.nfl⟩

/-! ## Polling scheduler state machine (`internal/polling/service.go`,
`internal/metrics`) -/

/-- The scheduler state relevant to the recovery-mode machine: the metrics
`ConsecutiveErrors` counter and the service's `inRecoveryMode` flag. -/
structure PollState where
  consecutiveErrors : ℕ
  inRecoveryMode : Bool
deriving DecidableEq, Repr

/-- `Metrics.RecordPollError` — increments the consecutive-error counter. -/
def Metrics.RecordPollError (st : PollState) : PollState :=
  { st with consecutiveErrors := st.consecutiveErrors + 1 }

/-- `Metrics.RecordPollSuccess` — stores zero into the consecutive-error
counter. -/
def Metrics.RecordPollSuccess (st : PollState) : PollState :=
  { st with consecutiveErrors := 0 }

/-- `Service.handlePollError` — when the (already incremented) counter has
reached `maxConsecutiveErrors` and recovery mode is not yet active, enters
recovery mode and broadcasts the degraded status once; returns the new
state and the list of status broadcasts emitted. -/
def Service.handlePollError (maxConsecutiveErrors : ℕ) (st : PollState) :
    PollState × List String :=
  if maxConsecutiveErrors ≤ st.consecutiveErrors then
    if st.inRecoveryMode then (st, [])
    else ({ st with inRecoveryMode := true }, ["polling_degraded"])
  else (st, [])

/-- `Service.handlePollSuccess` — exits recovery mode on success and
broadcasts the healthy status once (the `lastSuccessTime` bookkeeping is
not modelled). -/
def Service.handlePollSuccess (st : PollState) : PollState × List String :=
  if st.inRecoveryMode then
    ({ st with inRecoveryMode := false }, ["polling_healthy"])
  else (st, [])

/-- Outcome of one `pollSport` cycle after retries are exhausted. -/
inductive PollEvent where
  | success
  | failure
deriving DecidableEq, Repr

/-- One `pollSport` outcome applied to the state: the metrics record runs
first, then the handler — exactly the call order in `pollSport`. -/
def Service.pollStep (maxConsecutiveErrors : ℕ) (st : PollState) :
    PollEvent → PollState × List String
  | .failure => Service.handlePollError maxConsecutiveErrors
      (Metrics.RecordPollError st)
  | .success => Service.handlePollSuccess (Metrics.RecordPollSuccess st)

/-- `Service.adjustTickerIfNeeded` — the tick interval after a poll cycle:
the recovery interval while in recovery mode, the normal interval
otherwise. -/
def Service.adjustTickerIfNeeded (interval recoveryInterval : ℚ)
    (st : PollState) : ℚ :=
  if st.inRecoveryMode then recoveryInterval else interval

/-- States reachable from scheduler start (counter 0, recovery off) by poll
outcomes. -/
inductive PollReachable (maxConsecutiveErrors : ℕ) : PollState → Prop where
  | init : PollReachable maxConsecutiveErrors ⟨0, false⟩
  | step (st : PollState) (e : PollEvent) :
      PollReachable maxConsecutiveErrors st →
      PollReachable maxConsecutiveErrors
        (Service.pollStep maxConsecutiveErrors st e).1

/-- In a reachable state outside recovery mode the counter is below the
threshold (threshold at least 1). -/
theorem pollReachable_counter_lt (maxErr : ℕ) (hmax : 1 ≤ maxErr)
    (st : PollState) (hst : PollReachable maxErr st) :
    st.inRecoveryMode = false → st.consecutiveErrors < maxErr := by
  induction hst with
  | init => exact fun _ => hmax
  | step st e ih =>
    cases e with
    | success =>
      intro _
      simp only [Service.pollStep, Metrics.RecordPollSuccess,
        Service.handlePollSuccess]
      by_cases hrec : st.inRecoveryMode
      · simp [hrec]
        omega
      · simp [hrec]
        omega
    | failure =>
      simp only [Service.pollStep, Metrics.RecordPollError,
        Service.handlePollError]
      by_cases hge : maxErr ≤ st.consecutiveErrors + 1
      · by_cases hrec : st.inRecoveryMode
        · simp only [if_pos hge, if_pos hrec]
          intro hfalse
          rw [hrec] at hfalse
          exact absurd hfalse (by decide)
        · simp only [if_pos hge, if_neg hrec]
          intro hfalse
          exact absurd hfalse (by decide)
      · simp only [if_neg hge]
        intro _
        omega

/-- C4: on any success the consecutive-failure counter resets to zero;
from a reachable non-recovery state, a failure enters recovery mode exactly
when the incremented counter reaches the configured threshold; recovery is
exited only by a success; entering emits exactly one degraded broadcast and
exiting exactly one healthy broadcast (none when the mode does not change);
and after entering, the tick interval is the recovery interval. -/
theorem C4_recovery_state_machine (maxErr : ℕ) (st : PollState)
    (interval recoveryInterval : ℚ) (hmax : 1 ≤ maxErr)
    (hst : PollReachable maxErr st) :
    (Service.pollStep maxErr st .success).1.consecutiveErrors = 0 ∧
    (st.inRecoveryMode = false →
      ((Service.pollStep maxErr st .failure).1.inRecoveryMode = true ↔
        st.consecutiveErrors + 1 = maxErr)) ∧
    (st.inRecoveryMode = true →
      (Service.pollStep maxErr st .failure).1.inRecoveryMode = true ∧
      (Service.pollStep maxErr st .success).1.inRecoveryMode = false) ∧
    (∀ e : PollEvent,
      (st.inRecoveryMode = false →
        (Service.pollStep maxErr st e).1.inRecoveryMode = true →
        (Service.pollStep maxErr st e).2 = ["polling_degraded"]) ∧
      (st.inRecoveryMode = true →
        (Service.pollStep maxErr st e).1.inRecoveryMode = false →
        (Service.pollStep maxErr st e).2 = ["polling_healthy"]) ∧
      ((Service.pollStep maxErr st e).1.inRecoveryMode = st.inRecoveryMode →
        (Service.pollStep maxErr st e).2 = [])) ∧
    ((Service.pollStep maxErr st .failure).1.inRecoveryMode = true →
      Service.adjustTickerIfNeeded interval recoveryInterval
        (Service.pollStep maxErr st .failure).1 = recoveryInterval) := by
  have hinv := pollReachable_counter_lt maxErr hmax st hst
  obtain ⟨n, rec⟩ := st
  cases rec with
  | false =>
    have hlt : n < maxErr := hinv rfl
    refine ⟨rfl, ?_, ?_, ?_, ?_⟩
    · intro _
      by_cases hge : maxErr ≤ n + 1
      · simp [Service.pollStep, Metrics.RecordPollError,
          Service.handlePollError, hge]
        omega
      · simp [Service.pollStep, Metrics.RecordPollError,
          Service.handlePollError, hge]
        omega
    · intro hrec
      exact absurd hrec (by simp)
    · intro e
      cases e with
      | success =>
        refine ⟨?_, ?_, ?_⟩
        · intro _ hcontra
          simp [Service.pollStep, Metrics.RecordPollSuccess,
            Service.handlePollSuccess] at hcontra
        · intro hrec _
          exact absurd hrec (by simp)
        · intro _
          rfl
      | failure =>
        refine ⟨?_, ?_, ?_⟩
        · intro _ hentered
          by_cases hge : maxErr ≤ n + 1
          · simp [Service.pollStep, Metrics.RecordPollError,
              Service.handlePollError, hge]
          · simp [Service.pollStep, Metrics.RecordPollError,
              Service.handlePollError, hge] at hentered
        · intro hrec _
          exact absurd hrec (by simp)
        · intro heq
          by_cases hge : maxErr ≤ n + 1
          · simp [Service.pollStep, Metrics.RecordPollError,
              Service.handlePollError, hge] at heq
          · simp [Service.pollStep, Metrics.RecordPollError,
              Service.handlePollError, hge]
    · intro hentered
      by_cases hge : maxErr ≤ n + 1
      · simp [Service.pollStep, Metrics.RecordPollError,
          Service.handlePollError, Service.adjustTickerIfNeeded, hge]
      · simp [Service.pollStep, Metrics.RecordPollError,
          Service.handlePollError, hge] at hentered
  | true =>
    refine ⟨rfl, ?_, ?_, ?_, ?_⟩
    · intro hrec
      exact absurd hrec (by simp)
    · intro _
      refine ⟨?_, rfl⟩
      by_cases hge : maxErr ≤ n + 1
      · simp [Service.pollStep, Metrics.RecordPollError,
          Service.handlePollError, hge]
      · simp [Service.pollStep, Metrics.RecordPollError,
          Service.handlePollError, hge]
    · intro e
      cases e with
      | success =>
        refine ⟨?_, ?_, ?_⟩
        · intro hrec _
          exact absurd hrec (by simp)
        · intro _ _
          rfl
        · intro heq
          simp [Service.pollStep, Metrics.RecordPollSuccess,
            Service.handlePollSuccess] at heq
      | failure =>
        refine ⟨?_, ?_, ?_⟩
        · intro hrec _
          exact absurd hrec (by simp)
        · intro _ hcontra
          by_cases hge : maxErr ≤ n + 1
          · simp [Service.pollStep, Metrics.RecordPollError,
              Service.handlePollError, hge] at hcontra
          · simp [Service.pollStep, Metrics.RecordPollError,
              Service.handlePollError, hge] at hcontra
        · intro _
          by_cases hge : maxErr ≤ n + 1
          · simp [Service.pollStep, Metrics.RecordPollError,
              Service.handlePollError, hge]
          · simp [Service.pollStep, Metrics.RecordPollError,
              Service.handlePollError, hge]
    · intro _
      by_cases hge : maxErr ≤ n + 1
      · simp [Service.pollStep, Metrics.RecordPollError,
          Service.handlePollError, Service.adjustTickerIfNeeded, hge]
      · simp [Service.pollStep, Metrics.RecordPollError,
          Service.handlePollError, Service.adjustTickerIfNeeded, hge]

theorem C4_recovery_state_machine_witness :
    (Service.pollStep 2 ⟨1, false⟩ .success).1.consecutiveErrors = 0 ∧
    ((Service.pollStep 2 ⟨1, false⟩ .failure).1.inRecoveryMode = true ↔
      1 + 1 = 2) :=
  have hreach : PollReachable 2 ⟨1, false⟩ :=
    PollReachable.step ⟨0, false⟩ PollEvent.failure PollReachable.init
  have hth := C4_recovery_state_machine 2 ⟨1, false⟩ 1 5 (by decide) hreach
  ⟨hth.1, hth.2.1 rfl⟩

/-! ## Claim C7: single-slot toggle command channel -/

/-- The non-blocking send into the capacity-1 `toggleCh` buffered channel
(`select { case s.toggleCh <- v: default: }`): when a toggle is already
pending the new value is dropped. -/
def toggleChanSend (slot : Option Bool) (v : Bool) : Option Bool :=
  match slot with
  | none => some v
  | some w => some w

/-- `Service.Enable` — non-blocking send of `true`. -/
def Service.Enable (slot : Option Bool) : Option Bool :=
  toggleChanSend slot true

/-- `Service.Disable` — non-blocking send of `false`. -/
def Service.Disable (slot : Option Bool) : Option Bool :=
  toggleChanSend slot false

/-- `Service.Toggle` — reads the current enabled flag and makes a
non-blocking send of its negation. -/
def Service.Toggle (enabled : Bool) (slot : Option Bool) : Option Bool :=
  toggleChanSend slot (!enabled)

/-- `Service.handleToggle` — applies a received toggle value: returns the
new enabled flag and whether an immediate out-of-band poll is triggered
(exactly when the toggle turns polling on). -/
def Service.handleToggle (wasEnabled : Bool) (enabled : Bool) :
    Bool × Bool :=
  (enabled, enabled && !wasEnabled)

/-- C7 counterexample: with an empty slot, `Enable` followed by `Disable`
leaves `true` pending — the earliest intent of the burst, not the latest:
the claim that the latest intent takes effect fails on the code. -/
theorem C7_counterexample :
    Service.Disable (Service.Enable none) = some true ∧
    Service.Disable (Service.Enable none) ≠ some false := by
  decide

/-- A pending slot never changes under further sends. -/
theorem toggleChanSend_foldl_some (vs : List Bool) (w : Bool) :
    vs.foldl toggleChanSend (some w) = some w := by
  induction vs with
  | nil => rfl
  | cons v rest ih => exact ih

/-- C7 amended: commands issued between two processing points of the
single-slot channel coalesce to the EARLIEST intent of the burst (later
sends are dropped while one is pending), and processing a toggle triggers
an immediate out-of-band poll exactly when it turns polling on. -/
theorem C7_toggle_coalesce (v : Bool) (vs : List Bool) :
    (v :: vs).foldl toggleChanSend none = some v ∧
    (∀ was en : Bool, (Service.handleToggle was en).1 = en) ∧
    (∀ was en : Bool,
      (Service.handleToggle was en).2 = true ↔ en = true ∧ was = false) := by
  refine ⟨?_, ?_, ?_⟩
  · rw [List.foldl_cons]
    exact toggleChanSend_foldl_some vs v
  · intro was en
    rfl
  · intro was en
    cases was <;> cases en <;> decide

/-! ## Claim C5: quiet-hours classification (`internal/service/odds.go`) -/

/-- `Service.isQuietHours` minute arithmetic: the preference strings are
parsed to hour/minute pairs and the current wall-clock time (in the
configured timezone) to `nowHour:nowMin`; all three are converted to
minutes since midnight; an overnight range (`startMinutes > endMinutes`)
is quiet when `current ≥ start` or `current < end`, a same-day range when
`current ∈ [start, end)`. -/
def Service.isQuietHours (startHour startMin endHour endMin
    nowHour nowMin : ℕ) : Bool :=
  let currentMinutes := nowHour * 60 + nowMin
  let startMinutes := startHour * 60 + startMin
  let endMinutes := endHour * 60 + endMin
  if endMinutes < startMinutes then
    decide (startMinutes ≤ currentMinutes ∨ currentMinutes < endMinutes)
  else
    decide (startMinutes ≤ currentMinutes ∧ currentMinutes < endMinutes)

/-- C5: for an overnight range (start > end in minutes since midnight) the
current time is quiet iff it is at or after the start or strictly before
the end; for a same-day range (start ≤ end) iff it lies in `[start, end)`. -/
theorem C5_quiet_hours_spec (startHour startMin endHour endMin
    nowHour nowMin : ℕ) :
    (endHour * 60 + endMin < startHour * 60 + startMin →
      (Service.isQuietHours startHour startMin endHour endMin
          nowHour nowMin = true ↔
        (startHour * 60 + startMin ≤ nowHour * 60 + nowMin ∨
          nowHour * 60 + nowMin < endHour * 60 + endMin))) ∧
    (startHour * 60 + startMin ≤ endHour * 60 + endMin →
      (Service.isQuietHours startHour startMin endHour endMin
          nowHour nowMin = true ↔
        (startHour * 60 + startMin ≤ nowHour * 60 + nowMin ∧
          nowHour * 60 + nowMin < endHour * 60 + endMin))) := by
  constructor
  · intro hover
    simp [Service.isQuietHours, hover]
  · intro hsame
    have hnot : ¬(endHour * 60 + endMin < startHour * 60 + startMin) :=
      not_lt.mpr hsame
    simp [Service.isQuietHours, hnot]

theorem C5_quiet_hours_spec_witness :
    (8 * 60 + 0 < 23 * 60 + 0) ∧
    (Service.isQuietHours 23 0 8 0 23 30 = true) ∧
    (Service.isQuietHours 23 0 8 0 7 30 = true) ∧
    (Service.isQuietHours 23 0 8 0 12 0 = false) ∧
    (Service.isQuietHours 2 0 6 0 4 0 = true ↔
      (2 * 60 + 0 ≤ 4 * 60 + 0 ∧ 4 * 60 + 0 < 6 * 60 + 0)) :=
  ⟨by decide, by decide, by decide, by decide,
    (C5_quiet_hours_spec 2 0 6 0 4 0).2 (by decide)⟩

/-! ## Claim C8: push delivery failure handling
(`internal/service/odds.go` sendPush, `internal/oddsapi/client.go`
UpdatePreferences) -/

/-- `database.Preferences` — the full stored preference row. -/
structure Preferences where
  enableWebsocket : Bool
  enablePush : Bool
  pushSubscription : String
  thresholdPoints : ℚ
  thresholdRebounds : ℚ
  thresholdAssists : ℚ
  thresholdThrees : ℚ
  thresholdDefault : ℚ
  sports : List String
  quietStart : String
  quietEnd : String
  timezone : String
  rateLimitPush : ℕ
  batchIntervalSeconds : ℕ
deriving DecidableEq, Repr

/-- `DB.UpdatePreferences` — the SQL `UPDATE preferences SET ...` assigns
EVERY column of the single row from the argument struct, so the stored row
becomes exactly the argument. -/
def DB.UpdatePreferences (_stored p : Preferences) : Preferences := p

/-- The Go literal `&database.Preferences{EnablePush: false,
PushSubscription: ""}` built in `sendPush`: every unnamed field holds its
Go zero value. -/
def pushDisableUpdate : Preferences :=
  { enableWebsocket := false
    enablePush := false
    pushSubscription := ""
    thresholdPoints := 0
    thresholdRebounds := 0
    thresholdAssists := 0
    thresholdThrees := 0
    thresholdDefault := 0
    sports := []
    quietStart := ""
    quietEnd := ""
    timezone := ""
    rateLimitPush := 0
    batchIntervalSeconds := 0 }

/-- Result of the `webpush.SendNotification` call. -/
inductive PushSendResult where
  | sendFailure
  | response (statusCode : ℕ)
deriving DecidableEq, Repr

/-- `Service.sendPush` — VAPID guard, preference lookup, enabled/
subscription guard, delivery, then status handling: on a status of 410 or
404 the stored preferences are replaced via `UpdatePreferences` with the
zero-valued disable struct; any status ≥ 400 returns an error (batch
dropped, no retry); success increments the rate limit (not modelled) and
returns no error.  Result: (stored preferences after the call, whether an
error was returned). -/
def Service.sendPush (vapidConfigured : Bool)
    (prefsLookup : Except Unit Preferences) (delivery : PushSendResult)
    (stored : Preferences) : Preferences × Bool :=
  if vapidConfigured = false then (stored, false)
  else
    match prefsLookup with
    | .error _ => (stored, true)
    | .ok prefs =>
      if prefs.enablePush = false ∨ prefs.pushSubscription = "" then
        (stored, false)
      else
        match delivery with
        | .sendFailure => (stored, true)
        | .response code =>
          if 400 ≤ code then
            if code = 410 ∨ code = 404 then
              (DB.UpdatePreferences stored pushDisableUpdate, true)
            else (stored, true)
          else (stored, false)

/-- A concrete stored preference row with non-default values everywhere. -/
def richPrefs : Preferences :=
  { enableWebsocket := true
    enablePush := true
    pushSubscription := "subscription-json"
    thresholdPoints := 2
    thresholdRebounds := 3
    thresholdAssists := 1
    thresholdThrees := 1
    thresholdDefault := 2
    sports := ["basketball_nba"]
    quietStart := "23:00"
    quietEnd := "08:00"
    timezone := "America/New_York"
    rateLimitPush := 10
    batchIntervalSeconds := 300 }

/-- C8 as evaluated at the failing input: on an HTTP 410 the code replaces
the whole preference row with the zero-valued struct — push is indeed
disabled and the subscription cleared, but the websocket toggle, the
per-category thresholds, the quiet hours, the timezone, the rate limit and
the batch interval are ALL wiped to zero values, contradicting the claim
that every other stored preference field is left unchanged (the log line
says only "disabling" push).  Non-invalid-subscription failures leave the
row unchanged. -/
theorem C8_sendPush_wipes_preferences :
    (Service.sendPush true (.ok richPrefs) (.response 410) richPrefs).1 =
      pushDisableUpdate ∧
    richPrefs.enableWebsocket = true ∧
    (Service.sendPush true (.ok richPrefs)
      (.response 410) richPrefs).1.enableWebsocket = false ∧
    richPrefs.timezone = "America/New_York" ∧
    (Service.sendPush true (.ok richPrefs)
      (.response 410) richPrefs).1.timezone = "" ∧
    (Service.sendPush true (.ok richPrefs)
      (.response 410) richPrefs).1.enablePush = false ∧
    (Service.sendPush true (.ok richPrefs)
      (.response 410) richPrefs).1.pushSubscription = "" ∧
    (Service.sendPush true (.ok richPrefs) (.response 500) richPrefs).1 =
      richPrefs ∧
    (Service.sendPush true (.ok richPrefs) (.response 500) richPrefs).2 =
      true := by
  decide

/-! ## Claim C10: change-detection fingerprint (`Service.hashGames`,
`Service.hasChanges`) -/

/-- `outcomeSnap` inside `hashGames` — the nullable `Point` collapses to
0.0 when absent. -/
structure OutcomeSnap where
  name : String
  price : ℚ
  point : ℚ
deriving DecidableEq, Repr

/-- `marketSnap` inside `hashGames`. -/
structure MarketSnap where
  key : String
  outcomes : List OutcomeSnap
deriving DecidableEq, Repr

/-- `bookmakerSnap` inside `hashGames`. -/
structure BookmakerSnap where
  key : String
  markets : List MarketSnap
deriving DecidableEq, Repr

/-- `oddsSnapshot` inside `hashGames`. -/
structure OddsSnapshot where
  gameID : String
  bookmakers : List BookmakerSnap
deriving DecidableEq, Repr

/-- `Service.hashGames` — the normalized snapshot extracted for change
detection.  The Go code JSON-marshals this snapshot list and hex-encodes
its sha256; both are deterministic functions of the snapshot, so the
fingerprint is modelled by the snapshot itself — equal snapshots yield
equal fingerprint strings, which is the direction `hasChanges` needs in
order to report "no change". -/
def Service.hashGames (games : List Game) : List OddsSnapshot :=
  games.map (fun game =>
    { gameID := game.id
      bookmakers := game.bookmakers.map (fun bm =>
        { key := bm.key
          markets := bm.markets.map (fun m =>
            { key := m.key
              outcomes := m.outcomes.map (fun o =>
                { name := o.name
                  price := o.price
                  point := match o.point with
                    | none => 0
                    | some p => p }) }) }) })

/-- The polling service's per-sport `lastData` fingerprint cache
(`map[models.Sport]string`; an absent key is `none`). -/
structure PollCache where
  lastData : Sport → Option (List OddsSnapshot)

/-- `Service.hasChanges` — the new fingerprint differs from the cached one. -/
def Service.hasChanges (cache : PollCache) (sport : Sport)
    (games : List Game) : Bool :=
  decide (some (Service.hashGames games) ≠ cache.lastData sport)

/-- `Service.updateCache` — stores the fingerprint of the current data. -/
def Service.updateCache (cache : PollCache) (sport : Sport)
    (games : List Game) : PollCache :=
  { lastData := fun s =>
      if s = sport then some (Service.hashGames games)
      else cache.lastData s }

/-- The change-gated tail of `pollSport` after a successful fetch:
broadcasts the update and (with a detector and callback configured)
launches the detection pass, and caches the new fingerprint, all iff
`hasChanges`; result is (broadcasted, detectionRun, new cache). -/
def Service.pollChangeGate (cache : PollCache) (sport : Sport)
    (games : List Game) : Bool × Bool × PollCache :=
  if Service.hasChanges cache sport games then
    (true, true, Service.updateCache cache sport games)
  else (false, false, cache)

/-- Pointwise Boolean equivalence of two lists. -/
def listEquiv {α β : Type} (f : α → β → Bool) : List α → List β → Bool
  | [], [] => true
  | a :: as, b :: bs => f a b && listEquiv f as bs
  | _, _ => false

/-- Two outcomes agree except that a `nil` point on one side may face a
literal 0.0 on the other. -/
def outcomeNilZeroEquiv (o1 o2 : Outcome) : Bool :=
  decide (o1.name = o2.name) && decide (o1.price = o2.price) &&
    (decide (o1.point = o2.point) ||
      (decide (o1.point = none) && decide (o2.point = some 0)) ||
      (decide (o1.point = some 0) && decide (o2.point = none)))

/-- Markets identical up to nil-vs-zero points. -/
def marketNilZeroEquiv (m1 m2 : MarketData) : Bool :=
  decide (m1.key = m2.key) &&
    listEquiv outcomeNilZeroEquiv m1.outcomes m2.outcomes

/-- Bookmakers identical up to nil-vs-zero points. -/
def bookmakerNilZeroEquiv (b1 b2 : Bookmaker) : Bool :=
  decide (b1.key = b2.key) && decide (b1.title = b2.title) &&
    decide (b1.lastUpdate = b2.lastUpdate) &&
    listEquiv marketNilZeroEquiv b1.markets b2.markets

/-- Games identical up to nil-vs-zero points. -/
def gameNilZeroEquiv (g1 g2 : Game) : Bool :=
  decide (g1.id = g2.id) && decide (g1.sportKey = g2.sportKey) &&
    decide (g1.sportTitle = g2.sportTitle) &&
    decide (g1.commenceTime = g2.commenceTime) &&
    decide (g1.homeTeam = g2.homeTeam) &&
    decide (g1.awayTeam = g2.awayTeam) &&
    listEquiv bookmakerNilZeroEquiv g1.bookmakers g2.bookmakers

/-- Game lists identical up to nil-vs-zero points. -/
def gamesNilZeroEquiv : List Game → List Game → Bool :=
  listEquiv gameNilZeroEquiv

/-- Mapping related lists with functions that agree on related elements
yields equal lists. -/
theorem listEquiv_map {α β γ : Type} (f : α → β → Bool) (g : α → γ)
    (k : β → γ) (hgk : ∀ a b, f a b = true → g a = k b) :
    ∀ (as : List α) (bs : List β), listEquiv f as bs = true →
      as.map g = bs.map k := by
  intro as
  induction as with
  | nil =>
    intro bs h
    cases bs with
    | nil => rfl
    | cons b bs => simp [listEquiv] at h
  | cons a as ih =>
    intro bs h
    cases bs with
    | nil => simp [listEquiv] at h
    | cons b bs =>
      simp only [listEquiv, Bool.and_eq_true] at h
      simp only [List.map_cons]
      rw [hgk a b h.1, ih bs h.2]

/-- Equivalent-up-to-nil-points game lists have equal fingerprints. -/
theorem hashGames_eq_of_equiv (gs1 gs2 : List Game)
    (h : gamesNilZeroEquiv gs1 gs2 = true) :
    Service.hashGames gs1 = Service.hashGames gs2 := by
  unfold Service.hashGames
  refine listEquiv_map gameNilZeroEquiv _ _ ?_ gs1 gs2 h
  intro g1 g2 hg
  simp only [gameNilZeroEquiv, Bool.and_eq_true, decide_eq_true_eq] at hg
  obtain ⟨⟨⟨⟨⟨⟨hid, -⟩, -⟩, -⟩, -⟩, -⟩, hbooks⟩ := hg
  simp only [OddsSnapshot.mk.injEq]
  refine ⟨hid, ?_⟩
  refine listEquiv_map bookmakerNilZeroEquiv _ _ ?_ _ _ hbooks
  intro b1 b2 hb
  simp only [bookmakerNilZeroEquiv, Bool.and_eq_true,
    decide_eq_true_eq] at hb
  obtain ⟨⟨⟨hkey, -⟩, -⟩, hmkts⟩ := hb
  simp only [BookmakerSnap.mk.injEq]
  refine ⟨hkey, ?_⟩
  refine listEquiv_map marketNilZeroEquiv _ _ ?_ _ _ hmkts
  intro m1 m2 hm
  simp only [marketNilZeroEquiv, Bool.and_eq_true, decide_eq_true_eq] at hm
  obtain ⟨hmkey, houts⟩ := hm
  simp only [MarketSnap.mk.injEq]
  refine ⟨hmkey, ?_⟩
  refine listEquiv_map outcomeNilZeroEquiv _ _ ?_ _ _ houts
  intro o1 o2 ho
  simp only [outcomeNilZeroEquiv, Bool.and_eq_true, Bool.or_eq_true,
    decide_eq_true_eq] at ho
  obtain ⟨⟨hname, hprice⟩, hpt⟩ := ho
  simp only [OutcomeSnap.mk.injEq]
  refine ⟨hname, hprice, ?_⟩
  rcases hpt with (hpp | ⟨h1, h2⟩) | ⟨h1, h2⟩
  · rw [hpp]
  · rw [h1, h2]
  · rw [h1, h2]

/-- C10 (implicit): `hashGames` maps an absent outcome point to 0.0, so
two game lists identical except for nil-vs-0.0 points have equal
fingerprints; after caching the first, `hasChanges` on the second reports
no change and the change-gated tail of `pollSport` neither broadcasts nor
runs a detection pass, leaving the cache untouched. -/
theorem C10_nil_point_fingerprint (gs1 gs2 : List Game) (cache : PollCache)
    (sport : Sport) (h : gamesNilZeroEquiv gs1 gs2 = true) :
    Service.hashGames gs1 = Service.hashGames gs2 ∧
    Service.hasChanges (Service.updateCache cache sport gs1) sport gs2 =
      false ∧
    Service.pollChangeGate (Service.updateCache cache sport gs1) sport
      gs2 = (false, false, Service.updateCache cache sport gs1) := by
  have hhash := hashGames_eq_of_equiv gs1 gs2 h
  have hnc : Service.hasChanges (Service.updateCache cache sport gs1)
      sport gs2 = false := by
    simp [Service.hasChanges, Service.updateCache, hhash]
  exact ⟨hhash, hnc, by simp [Service.pollChangeGate, hnc]⟩

/-- Witness game whose totals outcome has an absent point. -/
def gameNilPoint : Game :=
  { id := "g1"
    sportKey := Sport.nba
    sportTitle := "NBA"
    commenceTime := 100
    homeTeam := "H"
    awayTeam := "A"
    bookmakers :=
      [{ key := "bk", title := "Book", lastUpdate := 50,
         markets :=
           [{ key := "totals",
              outcomes :=
                [{ name := "Over", price := 110, point := none }] }] }] }

/-- The same game with the point present as literal 0.0. -/
def gameZeroPoint : Game :=
  { id := "g1"
    sportKey := Sport.nba
    sportTitle := "NBA"
    commenceTime := 100
    homeTeam := "H"
    awayTeam := "A"
    bookmakers :=
      [{ key := "bk", title := "Book", lastUpdate := 50,
         markets :=
           [{ key := "totals",
              outcomes :=
                [{ name := "Over", price := 110, point := some 0 }] }] }] }

/-- Fresh poll cache with no fingerprints stored. -/
def emptyCache : PollCache := { lastData := fun _ => none }

theorem C10_nil_point_fingerprint_witness :
    gamesNilZeroEquiv [gameNilPoint] [gameZeroPoint] = true ∧
    Service.hasChanges
      (Service.updateCache emptyCache Sport.nba [gameNilPoint]) Sport.nba
      [gameZeroPoint] = false :=
  ⟨by decide,
    (C10_nil_point_fingerprint [gameNilPoint] [gameZeroPoint] emptyCache
      Sport.nba (by decide)).2.1⟩
